import Mathlib

/-!
Shallow embedding of `src/feishu_bitable.py` (a Feishu Bitable sync job with
stock/fund price resolvers) and proofs about it.

Modelling conventions:
* Prices parsed by Python's `float(...)` are modelled as `Int`; the claims under
  study only compare prices with `0`, never compute with them.
* External HTTP calls are modelled by environments: a function from the request
  data to the (already JSON-decoded) response, with `none`/a dedicated
  constructor standing for a raised transport or parse exception.
* Python dicts keyed by strings are modelled as association lists; the inputs
  the program feeds them are duplicate-free, so first-match lookup agrees with
  Python's last-write-wins assignment everywhere we reason.
* Side effects we reason about (provider calls, sleeps, per-ticker fallback
  calls) are recorded in an event trace returned next to the value.
-/

abbrev Price := Int

/-! ## Credential manager (`__init__`, `_refresh_access_token`, `_get_access_token`) -/

/-- Token state held on the client: `self.access_token` (None initially) and
`self.token_expiry_time` (0 initially). -/
structure TokenState where
  access_token : Option String
  token_expiry_time : Int
deriving DecidableEq

/-- The JSON body answered by the auth endpoint, to the extent
`_get_access_token` inspects it: `response_data.get("code")` and
`response_data.get("tenant_access_token")`, each possibly absent. -/
structure AuthResponse where
  code : Option Int
  tenant_access_token : Option String
deriving DecidableEq

/-- Model of `_get_access_token`: returns `tenant_access_token` when the body's code is
0, otherwise raises. -/
def get_access_token (resp : AuthResponse) : Except String (Option String) :=
  if resp.code = some 0 then Except.ok resp.tenant_access_token
  else Except.error "get access_token failed"

/-- Python truthiness of `self.access_token`: `not self.access_token` holds for
`None` and for the empty string. -/
def tokenFalsy : Option String → Bool
  | none => true
  | some s => s.isEmpty

/-- The refresh condition of `_refresh_access_token`:
`not self.access_token or current_time + 30 > self.token_expiry_time`. -/
def needsRefresh (now : Int) (s : TokenState) : Bool :=
  tokenFalsy s.access_token || decide (now + 30 > s.token_expiry_time)

/-- Model of `_refresh_access_token`: `now` is `int(time.time())` sampled on entry;
`resp` is the auth endpoint's body if a request is made. On refresh the new
expiry is `now + 7200` no matter what the response contained. -/
def refresh_access_token (now : Int) (resp : AuthResponse) (s : TokenState) :
    Except String TokenState :=
  if needsRefresh now s then
    match get_access_token resp with
    | Except.error e => Except.error e
    | Except.ok tok => Except.ok ⟨tok, now + 7200⟩
  else Except.ok s

/-- Model of `__init__`: sets `access_token = None`, `token_expiry_time = 0`, then calls
`_refresh_access_token` (which therefore always fires the auth request). -/
def client_init (now : Int) (resp : AuthResponse) : Except String TokenState :=
  refresh_access_token now resp ⟨none, 0⟩

/-! ## Identifier classification (`__main__`, lines 597-599) -/

/-- Python's `str.isdigit()` restricted to ASCII content: true iff the string
is nonempty and every character is a decimal digit. -/
def pyIsDigit (s : String) : Bool :=
  !s.isEmpty && s.all Char.isDigit

/-- Source: `china_fund_codes = [code for code in unique_codes if code and code.isdigit()]` -/
def china_fund_codes (unique_codes : List String) : List String :=
  unique_codes.filter (fun c => !c.isEmpty && pyIsDigit c)

/-- Source: `us_stock_codes = [code for code in unique_codes if code and not code.isdigit()]` -/
def us_stock_codes (unique_codes : List String) : List String :=
  unique_codes.filter (fun c => !c.isEmpty && !pyIsDigit c)

/-! ## Stock price resolver (`get_us_stock_price`, `_get_single_us_stock_price`) -/

/-- The Alpha Vantage response as `_get_single_us_stock_price` reads it:
`quote p` means `"Global Quote"` was present and truthy and
`float(quote.get("05. price", 0))` parsed to `p` (0 when the field is absent);
`note` is the rate-limit notice branch; `other` any other body shape;
`throw` a raised transport/parse exception. -/
inductive AVResponse where
  | quote (price : Price)
  | note
  | other
  | throw
deriving DecidableEq

/-- The Alpha Vantage leg: accepts the price only when it is positive,
otherwise falls through (returns nothing) on every branch. -/
def alpha_vantage_price : AVResponse → Option Price
  | AVResponse.quote p => if p > 0 then some p else none
  | _ => none

/-- The tsanghi.com response as the fallback leg reads it: `ok c` means
`code == 200`, `"data"` present and nonempty, and
`float(data[0].get("close", 0))` parsed to `c` (0 when `close` is absent);
`bad` any other body; `throw` a raised exception. -/
inductive TsanghiResponse where
  | ok (close : Price)
  | bad
  | throw
deriving DecidableEq

/-- The tsanghi fallback leg: returns `float(stock_data.get("close", 0))`
unconditionally on a well-shaped response — the source has no positivity
check here. -/
def tsanghi_price : TsanghiResponse → Option Price
  | TsanghiResponse.ok c => some c
  | _ => none

/-- One entry of a Twelve Data response: `price` is the parsed `"price"`
field (`none` when absent or unparseable), `statusError` whether
`get("status") == "error"`. -/
structure TDStock where
  price : Option Price
  statusError : Bool
deriving DecidableEq

/-- A decoded Twelve Data body: `isRateLimited` is the embedded
`code == 429` check; `asSingle` is how the body reads when the group had one
symbol; `byCode` how it reads (per symbol) when it had several. -/
structure TDResponseData where
  isRateLimited : Bool
  asSingle : TDStock
  byCode : String → Option TDStock

/-- Environment for a stock-resolution run: `hasKey` is whether an Alpha
Vantage key is configured; `td n` is the body of the `n`-th Twelve Data
request of the run (`none` = the request raised); `av`/`ts` the per-ticker
bodies of the single-ticker providers. -/
structure StockEnv where
  hasKey : Bool
  td : Nat → Option TDResponseData
  av : String → AVResponse
  ts : String → TsanghiResponse

/-- Observable actions of the stock resolver. Sleep durations are in tenths
of a second: 5 = the 0.5s inter-group delay, 15 = the 1.5s pause after an
Alpha Vantage hit, 600 = the 60s rate-limit wait. -/
inductive StockEvent where
  | tdCall (symbols : List String)
  | sleepTenths (tenths : Nat)
  | singleCall (code : String)
deriving DecidableEq

/-- Model of `_get_single_us_stock_price`: Alpha Vantage first (only with a key; a
positive hit sleeps 1.5s and returns), else the tsanghi fallback. -/
def single_us_stock_price (env : StockEnv) (code : String) :
    Option Price × List StockEvent :=
  match (if env.hasKey then alpha_vantage_price (env.av code) else none) with
  | some p => (some p, [StockEvent.sleepTenths 15])
  | none => (tsanghi_price (env.ts code), [])

/-- The per-group degraded path of `get_us_stock_price`: every ticker of the
group goes through `_get_single_us_stock_price`; `None` results are dropped. -/
def degrade_group (env : StockEnv) : List String → List (String × Price) × List StockEvent
  | [] => ([], [])
  | c :: cs =>
    let r := single_us_stock_price env c
    let rest := degrade_group env cs
    ((match r.1 with | some v => [(c, v)] | none => []) ++ rest.1,
     (StockEvent.singleCall c :: r.2) ++ rest.2)

/-- How one ticker of a group is read out of a Twelve Data body: the
single-symbol shape when the group has one symbol, else the keyed shape.
No positivity check in either shape. -/
def td_read (single : Bool) (r : TDResponseData) (code : String) : Option Price :=
  if single then
    match r.asSingle.price with
    | some p => if r.asSingle.statusError then none else some p
    | none => none
  else
    match r.byCode code with
    | some s =>
      match s.price with
      | some p => if s.statusError then none else some p
      | none => none
    | none => none

/-- The prices a group contributes from a successfully decoded Twelve Data
body. -/
def td_group_results (r : TDResponseData) (batch : List String) :
    List (String × Price) :=
  batch.filterMap (fun code =>
    (td_read (batch.length == 1) r code).map (fun p => (code, p)))

/-- One group of `get_us_stock_price`'s batch loop. `n` is the number of
Twelve Data requests already issued this run; `isLast` is
`¬ (i + batch_size < len(ticker))`, deciding the 0.5s inter-group sleep.
Mirrors the source: a 429 body sleeps 60s and retries once; a second 429
raises, and that exception — like a transport exception — is caught by the
group's handler, which degrades to per-ticker resolution. The inter-group
sleep sits inside the `try`, so the degraded path skips it. -/
def processGroup (env : StockEnv) (n : Nat) (batch : List String) (isLast : Bool) :
    List (String × Price) × List StockEvent × Nat :=
  match env.td n with
  | none =>
    let d := degrade_group env batch
    (d.1, StockEvent.tdCall batch :: d.2, n + 1)
  | some r =>
    if r.isRateLimited then
      match env.td (n + 1) with
      | none =>
        let d := degrade_group env batch
        (d.1, StockEvent.tdCall batch :: StockEvent.sleepTenths 600 ::
          StockEvent.tdCall batch :: d.2, n + 2)
      | some r2 =>
        if r2.isRateLimited then
          let d := degrade_group env batch
          (d.1, StockEvent.tdCall batch :: StockEvent.sleepTenths 600 ::
            StockEvent.tdCall batch :: d.2, n + 2)
        else
          (td_group_results r2 batch,
           StockEvent.tdCall batch :: StockEvent.sleepTenths 600 ::
             StockEvent.tdCall batch ::
             (if isLast then [] else [StockEvent.sleepTenths 5]), n + 2)
    else
      (td_group_results r batch,
       StockEvent.tdCall batch ::
         (if isLast then [] else [StockEvent.sleepTenths 5]), n + 1)

/-- Fuel-indexed grouping; called with `fuel = l.length` it realises
`for i in range(0, len(ticker), 8): batch = ticker[i:i+8]`. -/
def chunksAux : Nat → List String → List (List String)
  | 0, _ => []
  | _, [] => []
  | Nat.succ fuel, a :: l => ((a :: l).take 8) :: chunksAux fuel ((a :: l).drop 8)

/-- The groups of 8 the batch loop iterates over. -/
def chunks8 (l : List String) : List (List String) :=
  chunksAux l.length l

/-- The batch loop over the groups, threading the Twelve Data request
counter. A group is last exactly when no groups follow it. -/
def processGroups (env : StockEnv) : List (List String) → Nat →
    List (String × Price) × List StockEvent
  | [], _ => ([], [])
  | g :: gs, n =>
    let step := processGroup env n g gs.isEmpty
    let rest := processGroups env gs step.2.2
    (step.1 ++ rest.1, step.2.1 ++ rest.2)

/-- Model of `get_us_stock_price` on a list argument: the batched resolver. -/
def get_us_stock_price_list (env : StockEnv) (tickers : List String) :
    List (String × Price) × List StockEvent :=
  processGroups env (chunks8 tickers) 0

/-! ## Fund price resolver (`get_china_fund_price`, `_get_single_china_fund_price`) -/

/-- A Yahoo Finance chart response as `_get_single_china_fund_price` reads
it: `status200` is `response.status_code == 200`; `hasResult` whether
`chart.result` exists and is nonempty; `regularMarketPrice` the parsed
`meta.regularMarketPrice` of `result[0]` when present. A raised exception is
modelled by `throws` (the `except` clause just moves to the next variant). -/
structure YahooResp where
  status200 : Bool
  hasResult : Bool
  regularMarketPrice : Option Price
  throws : Bool
deriving DecidableEq

/-- One Yahoo variant attempt: on a well-shaped response the parsed
`regularMarketPrice` is returned unconditionally — no positivity check in
the source. -/
def yahoo_variant_price (r : YahooResp) : Option Price :=
  if r.throws then none
  else if r.status200 && r.hasResult then r.regularMarketPrice
  else none

/-- One point of eastmoney's `Data_netWorthTrend` array: `y` is the parsed
`"y"` field when present. -/
structure EastPoint where
  y : Option Price
deriving DecidableEq

/-- The eastmoney response as the fund fallback reads it: `status200` the
HTTP status test, `hasMarker` whether `"Data_netWorthTrend"` occurs in the
body, `matched` the regex-extracted and JSON-parsed array (`none` when the
regex fails or parsing raises). -/
structure EastResp where
  status200 : Bool
  hasMarker : Bool
  matched : Option (List EastPoint)
deriving DecidableEq

/-- The eastmoney fallback: takes the last array element's `y` value
unconditionally — no positivity check in the source. -/
def east_price (r : EastResp) : Option Price :=
  if r.status200 && r.hasMarker then
    match r.matched with
    | some pts =>
      match pts.getLast? with
      | some pt => pt.y
      | none => none
    | none => none
  else none

/-- Python's `str.startswith` with a single-character argument: the string is
nonempty and its first character is `ch`. -/
def startsWithCh (code : String) (ch : Char) : Bool :=
  match code.data with
  | [] => false
  | c :: _ => c == ch

/-- The lexical market rule of the fund batch path: codes starting `6`/`5`
get the Shanghai `sh` tag, codes starting `0`/`1`/`2`/`3` the Shenzhen `sz`
tag, anything else defaults to `sz`. -/
def marketSymbol (code : String) : String :=
  if startsWithCh code '6' || startsWithCh code '5' then "sh" ++ code
  else if startsWithCh code '0' || startsWithCh code '1' || startsWithCh code '2'
      || startsWithCh code '3' then "sz" ++ code
  else "sz" ++ code

/-- One structurally valid line of a Tencent quote response: `symbol` is the
text between `v_` and `="`; `price` the parsed `parts[3]` when the line has
more than 3 `~`-separated parts and the field parses (`none` otherwise). -/
structure TencentLine where
  symbol : String
  price : Option Price
deriving DecidableEq

/-- How `get_china_fund_price` folds one response line into `result_dict`:
look the tagged symbol up in `code_mapping`, skip falsy originals, record
the parsed price only when it is positive (a zero price is read as a halted
instrument and dropped). -/
def tencent_process_line (mapping : List (String × String))
    (acc : List (String × Price)) (ln : TencentLine) : List (String × Price) :=
  match List.lookup ln.symbol mapping with
  | none => acc
  | some orig =>
    if orig.isEmpty then acc
    else
      match ln.price with
      | none => acc
      | some p => if p > 0 then acc ++ [(orig, p)] else acc

/-- Environment for a fund-resolution run: `yahoo` keyed by the attempted
symbol (code plus `.SS`/`.SZ`/no suffix), `east` keyed by the fund code,
`tencent` keyed by the joined batch symbols (`none` = the request or the
text decoding raised — which in the source can only happen before any line
is parsed). -/
structure FundEnv where
  yahoo : String → YahooResp
  east : String → EastResp
  tencent : List String → Option (List TencentLine)

/-- Observable actions of the fund resolver. -/
inductive FundEvent where
  | tencentCall (symbols : List String)
  | singleCall (code : String)
deriving DecidableEq

/-- Model of `_get_single_china_fund_price`: the three Yahoo variants in order
(`.SS`, `.SZ`, bare), then the eastmoney fallback, else `None`. -/
def single_china_fund_price (env : FundEnv) (code : String) : Option Price :=
  match yahoo_variant_price (env.yahoo (code ++ ".SS")) with
  | some p => some p
  | none =>
    match yahoo_variant_price (env.yahoo (code ++ ".SZ")) with
    | some p => some p
    | none =>
      match yahoo_variant_price (env.yahoo code) with
      | some p => some p
      | none => east_price (env.east code)

/-- Model of `get_china_fund_price` on a list argument: tag every code with its
market, issue one combined Tencent request, and fold the response lines
through `code_mapping`; when the request raises, degrade to the
single-identifier contract for every code of the input (the dict being
still empty at that point). A code the successful response omits is simply
absent — no fallback runs for it. -/
def get_china_fund_price_list (env : FundEnv) (codes : List String) :
    List (String × Price) × List FundEvent :=
  let mapping := codes.map (fun c => (marketSymbol c, c))
  let symbols := codes.map marketSymbol
  match env.tencent symbols with
  | some lines =>
    (lines.foldl (tencent_process_line mapping) [], [FundEvent.tencentCall symbols])
  | none =>
    (codes.filterMap (fun c => (single_china_fund_price env c).map (fun p => (c, p))),
     FundEvent.tencentCall symbols :: codes.map FundEvent.singleCall)

/-! ## Batch update (`batch_update_records_by_code`) -/

/-- Outcomes of the two table-update calls: `batchOk c` is whether the
`batch_update_records` call for code `c`'s rows succeeds; `rowOk rid`
whether the individual `update_record` for record `rid` succeeds. -/
structure UpdateEnv where
  batchOk : String → Bool
  rowOk : String → Bool

/-- One iteration of `batch_update_records_by_code`'s outer loop, on the
running `(total_updated, total_failed)` pair: skip codes without a price;
on batch success add the whole row count to updated; on batch failure retry
each row individually, counting per-row successes and failures. -/
def processCodeUpdate (env : UpdateEnv) (priceOf : String → Option Price)
    (acc : Nat × Nat) (entry : String × List String) : Nat × Nat :=
  match priceOf entry.1 with
  | none => acc
  | some _ =>
    if env.batchOk entry.1 then (acc.1 + entry.2.length, acc.2)
    else entry.2.foldl
      (fun a rid => if env.rowOk rid then (a.1 + 1, a.2) else (a.1, a.2 + 1)) acc

/-- Model of `batch_update_records_by_code`: fold the per-code step over
`code_records_dict` (a code to record-id-list mapping), starting from
`(0, 0)`. -/
def batch_update_records_by_code (env : UpdateEnv) (priceOf : String → Option Price)
    (codeRecords : List (String × List String)) : Nat × Nat :=
  codeRecords.foldl (processCodeUpdate env priceOf) (0, 0)

/-! ## Orchestrator row handling (`__main__`) -/

/-- One item of a list-valued identifier field; `text` is its `"text"` entry
when the item is a dict carrying one (`none` for malformed items). -/
structure RowItem where
  text : Option String
deriving DecidableEq

/-- The value of a row's `"代号"` field: a tagged-item list or some other
(non-list) value. -/
inductive FieldValue where
  | list (items : List RowItem)
  | other
deriving DecidableEq

/-- A table row as the orchestrator reads it: its record id and its
identifier field when present. -/
structure Row where
  record_id : String
  code_field : Option FieldValue
deriving DecidableEq

/-- The identifier texts one row contributes to the universe to price:
every item's truthy text, from list-valued fields only. -/
def row_codes (r : Row) : List String :=
  match r.code_field with
  | some (FieldValue.list items) =>
    items.filterMap (fun it =>
      match it.text with
      | some t => if t.isEmpty then none else some t
      | none => none)
  | _ => []

/-- The deduplicated identifier universe (`code_set` made into
`unique_codes`): every truthy item text of every row, first occurrences
kept. -/
def extract_codes (rows : List Row) : List String :=
  (rows.flatMap row_codes).dedup

/-- The identifier a row is updated under: the text of the first item of its
list-valued identifier field (`code_field[0].get("text")`). -/
def row_update_code (r : Row) : Option String :=
  match r.code_field with
  | some (FieldValue.list (it :: _)) => it.text
  | _ => none

/-- The contribution of one row to `code_records_dict`: its update code paired
with its record id, kept only when the first-item code is truthy, a string,
and has an entry in the price map. -/
def row_update_entry (priceOf : String → Option Price) (r : Row) :
    Option (String × String) :=
  match row_update_code r with
  | some c =>
    if !c.isEmpty && (priceOf c).isSome then some (c, r.record_id) else none
  | none => none

/-- Mapping `code_records_dict` flattened into (code, record id) pairs in row
order. -/
def build_code_records (rows : List Row) (priceOf : String → Option Price) :
    List (String × String) :=
  rows.filterMap (row_update_entry priceOf)

/-! ## Concrete runs used in closed statements -/

/-- A Twelve Data body carrying the embedded rate-limit code. -/
def rlResp : TDResponseData := ⟨true, ⟨none, false⟩, fun _ => none⟩

/-- A run in which every Twelve Data request is rate-limited, no Alpha
Vantage key is configured, and tsanghi answers every ticker with close 7. -/
def rlStockEnv : StockEnv :=
  ⟨false, fun _ => some rlResp, fun _ => AVResponse.other, fun _ => TsanghiResponse.ok 7⟩

/-- A run with no Alpha Vantage key in which every Twelve Data request
raises and tsanghi answers every ticker with close 0. -/
def zeroStockEnv : StockEnv :=
  ⟨false, fun _ => none, fun _ => AVResponse.other, fun _ => TsanghiResponse.ok 0⟩

/-- A Twelve Data body that is not rate-limited and carries no prices. -/
def emptyOkResp : TDResponseData := ⟨false, ⟨none, false⟩, fun _ => none⟩

/-- A run in which every Twelve Data request succeeds with an un-rate-limited
body. -/
def happyStockEnv : StockEnv :=
  ⟨false, fun _ => some emptyOkResp, fun _ => AVResponse.other, fun _ => TsanghiResponse.bad⟩

/-- An update run in which every batch call throws and exactly the row with
record id "a" updates individually. -/
def updEnvW : UpdateEnv := ⟨fun _ => false, fun rid => rid == "a"⟩

/-- A fund run in which the Tencent batch request raises, every Yahoo
variant fails, and eastmoney yields 3 for every code. -/
def fundThrowEnv : FundEnv :=
  ⟨fun _ => ⟨false, false, none, true⟩, fun _ => ⟨true, true, some [⟨some 3⟩]⟩,
   fun _ => none⟩

/-- A row whose identifier field is `[{text:"AAPL"}]`. -/
def rowA : Row := ⟨"r1", some (FieldValue.list [⟨some "AAPL"⟩])⟩

/-- A row whose identifier field is `[{text:"AAPL"},{text:"X"}]`. -/
def rowB : Row := ⟨"r2", some (FieldValue.list [⟨some "AAPL"⟩, ⟨some "X"⟩])⟩

/-- A price map holding only AAPL. -/
def priceMapW : String → Option Price :=
  fun c => if c == "AAPL" then some 11 else none

/-! ## Theorems -/

/-- Every identifier of the extracted universe is a truthy (nonempty)
string: the extraction loop guards every insertion with `if code`. -/
theorem mem_extract_codes {rows : List Row} {c : String}
    (h : c ∈ extract_codes rows) : c.isEmpty = false := by
  rw [extract_codes, List.mem_dedup, List.mem_flatMap] at h
  obtain ⟨r, -, hr⟩ := h
  unfold row_codes at hr
  rcases r with ⟨rid, cf⟩
  rcases cf with - | fv
  · simp at hr
  · rcases fv with items | -
    · simp only [List.mem_filterMap] at hr
      obtain ⟨it, -, hit⟩ := hr
      rcases ht : it.text with - | t <;> rw [ht] at hit
      · simp at hit
      · by_cases he : t.isEmpty = true
        · simp [he] at hit
        · simp [he] at hit
          rw [← hit]
          simpa using he
    · simp at hr

/-- C8: the refresh of `_refresh_access_token` fires exactly when no truthy
token is held or `now + 30` exceeds the stored expiry — in particular a
token with exactly 30 seconds of validity left is kept as is — and every
performed refresh stores expiry `now + 7200`, no matter what the issuance
response carried. -/
theorem tokenRefreshPolicy (now : Int) (resp : AuthResponse) (s : TokenState) :
    (tokenFalsy s.access_token = false → now + 30 ≤ s.token_expiry_time →
      refresh_access_token now resp s = Except.ok s)
    ∧ ((tokenFalsy s.access_token = true ∨ now + 30 > s.token_expiry_time) →
      resp.code = some 0 →
      refresh_access_token now resp s =
        Except.ok ⟨resp.tenant_access_token, now + 7200⟩)
    ∧ (tokenFalsy s.access_token = false → s.token_expiry_time = now + 30 →
      refresh_access_token now resp s = Except.ok s) := by
  refine ⟨?_, ?_, ?_⟩
  · intro h1 h2
    have hn : needsRefresh now s = false := by
      simp only [needsRefresh, h1, Bool.false_or, decide_eq_false_iff_not]
      omega
    simp [refresh_access_token, hn]
  · intro h1 h2
    have hn : needsRefresh now s = true := by
      rcases h1 with h1 | h1 <;> simp [needsRefresh, h1]
    simp [refresh_access_token, hn, get_access_token, h2]
  · intro h1 h2
    have hn : needsRefresh now s = false := by
      simp only [needsRefresh, h1, Bool.false_or, decide_eq_false_iff_not]
      omega
    simp [refresh_access_token, hn]

/-- Witness for the refresh policy: a token with exactly 30 seconds left is
kept, and a refresh from an empty state stores expiry `now + 7200`. -/
theorem tokenRefreshPolicy_w :
    refresh_access_token 0 ⟨some 0, some "t"⟩ ⟨some "t", 30⟩ =
      Except.ok ⟨some "t", 30⟩ ∧
    refresh_access_token 5 ⟨some 0, some "u"⟩ ⟨none, 9⟩ =
      Except.ok ⟨some "u", 5 + 7200⟩ :=
  ⟨(tokenRefreshPolicy 0 ⟨some 0, some "t"⟩ ⟨some "t", 30⟩).2.2 rfl rfl,
   (tokenRefreshPolicy 5 ⟨some 0, some "u"⟩ ⟨none, 9⟩).2.1 (Or.inl rfl) rfl⟩

/-- C10 (amended): construction performs the issuance request and raises
exactly when the response's code is not 0; a successfully constructed
client stores the response's token field — absent when the response
omitted it — and expiry equal to construction time + 7200. -/
theorem clientInitAuth (now : Int) (resp : AuthResponse) :
    (resp.code ≠ some 0 →
      client_init now resp = Except.error "get access_token failed")
    ∧ (resp.code = some 0 →
      client_init now resp = Except.ok ⟨resp.tenant_access_token, now + 7200⟩) := by
  constructor <;> intro h <;>
    simp [client_init, refresh_access_token, needsRefresh, tokenFalsy,
      get_access_token, h]

/-- C10 counterexample: an issuance response with code 0 but no
`tenant_access_token` field constructs the client successfully while it
holds no token at all. -/
theorem clientInitAuth_cex :
    client_init 0 ⟨some 0, none⟩ = Except.ok ⟨none, 7200⟩ := by
  simp [client_init, refresh_access_token, needsRefresh, tokenFalsy,
    get_access_token]

/-- Witness for construction: a non-zero code raises; code 0 stores the
returned token with expiry construction time + 7200. -/
theorem clientInitAuth_w :
    client_init 0 ⟨some 1, none⟩ = Except.error "get access_token failed" ∧
    client_init 3 ⟨some 0, some "k"⟩ = Except.ok ⟨some "k", 3 + 7200⟩ :=
  ⟨(clientInitAuth 0 ⟨some 1, none⟩).1 (by decide),
   (clientInitAuth 3 ⟨some 0, some "k"⟩).2 rfl⟩

/-- C9: over the deduplicated universe extracted from the rows, an
identifier is classified fund exactly when all its characters are decimal
digits and equity exactly otherwise; no identifier lands in both lists and
none in neither. -/
theorem classificationPartition (rows : List Row) (c : String)
    (hc : c ∈ extract_codes rows) :
    (c ∈ china_fund_codes (extract_codes rows) ↔ c.all Char.isDigit = true)
    ∧ (c ∈ us_stock_codes (extract_codes rows) ↔ ¬ c.all Char.isDigit = true)
    ∧ ¬ (c ∈ china_fund_codes (extract_codes rows)
        ∧ c ∈ us_stock_codes (extract_codes rows))
    ∧ (c ∈ china_fund_codes (extract_codes rows)
        ∨ c ∈ us_stock_codes (extract_codes rows)) := by
  have hne := mem_extract_codes hc
  have h1 : c ∈ china_fund_codes (extract_codes rows) ↔ c.all Char.isDigit = true := by
    simp [china_fund_codes, List.mem_filter, hc, pyIsDigit, hne]
  have h2 : c ∈ us_stock_codes (extract_codes rows) ↔ ¬ c.all Char.isDigit = true := by
    simp [us_stock_codes, List.mem_filter, hc, pyIsDigit, hne]
  refine ⟨h1, h2, ?_, ?_⟩
  · rintro ⟨ha, hb⟩
    exact (h2.1 hb) (h1.1 ha)
  · by_cases hd : c.all Char.isDigit = true
    · exact Or.inl (h1.2 hd)
    · exact Or.inr (h2.2 hd)

/-- Witness for classification: AAPL sits in the extracted universe and in
exactly one of the two lists. -/
theorem classificationPartition_w :
    "AAPL" ∈ extract_codes [rowB] ∧
    ("AAPL" ∈ china_fund_codes (extract_codes [rowB])
      ∨ "AAPL" ∈ us_stock_codes (extract_codes [rowB])) :=
  ⟨by decide, (classificationPartition [rowB] "AAPL" (by decide)).2.2.2⟩

/-- The per-row retry loop counts one success per succeeding row and one
failure per failing row, on top of the running totals. -/
theorem rowRetryCounts (env : UpdateEnv) (rows : List String) (acc : Nat × Nat) :
    rows.foldl
      (fun a rid => if env.rowOk rid then (a.1 + 1, a.2) else (a.1, a.2 + 1)) acc
      = (acc.1 + rows.countP env.rowOk,
         acc.2 + rows.countP (fun r => !env.rowOk r)) := by
  induction rows generalizing acc with
  | nil => simp
  | cons r rs ih =>
    rcases h : env.rowOk r with - | - <;>
      · simp [List.foldl_cons, h, ih, List.countP_cons, Prod.ext_iff]
        omega

/-- C3: when an identifier has a price and its batch call throws, its rows
are retried one by one, adding exactly the per-row success count to
`total_updated` and the per-row failure count to `total_failed`; and the
outer loop keeps folding over the remaining identifiers regardless of what
happened on this one. -/
theorem batchUpdateRowRetry (env : UpdateEnv) (priceOf : String → Option Price)
    (c : String) (rows : List String) (p : Price) (acc : Nat × Nat)
    (hp : priceOf c = some p) (hb : env.batchOk c = false) :
    processCodeUpdate env priceOf acc (c, rows)
      = (acc.1 + rows.countP env.rowOk,
         acc.2 + rows.countP (fun r => !env.rowOk r))
    ∧ ∀ pre post : List (String × List String),
        batch_update_records_by_code env priceOf (pre ++ (c, rows) :: post)
          = post.foldl (processCodeUpdate env priceOf)
              (processCodeUpdate env priceOf
                (pre.foldl (processCodeUpdate env priceOf) (0, 0)) (c, rows)) := by
  constructor
  · simp only [processCodeUpdate, hp, hb, Bool.false_eq_true, if_neg]
    exact rowRetryCounts env rows acc
  · intro pre post
    simp [batch_update_records_by_code, List.foldl_append]

/-- Witness for the per-row degradation: with a price present, a throwing
batch call, and rows "a" (succeeds) and "b" (fails), the counters advance
by one each. -/
theorem batchUpdateRowRetry_w :
    processCodeUpdate updEnvW (fun _ => some 1) (0, 0) ("X", ["a", "b"])
      = (0 + 1, 0 + 1) := by
  have h := (batchUpdateRowRetry updEnvW (fun _ => some 1) "X" ["a", "b"] 1
    (0, 0) rfl rfl).1
  simpa using h

/-- C1 (amended): only the Alpha Vantage leg and the Tencent fund-batch leg
reject a non-positive price; the tsanghi leg, both Twelve Data batch
shapes, the Yahoo chart leg and the eastmoney leg hand the parsed price
through unchanged, whatever its sign. -/
theorem priceSignPolicy :
    (∀ p : Price, p ≤ 0 → alpha_vantage_price (AVResponse.quote p) = none)
    ∧ (∀ (mapping : List (String × String)) (acc : List (String × Price))
        (sym orig : String) (p : Price), List.lookup sym mapping = some orig →
        orig.isEmpty = false → p ≤ 0 →
        tencent_process_line mapping acc ⟨sym, some p⟩ = acc)
    ∧ (∀ c : Price, tsanghi_price (TsanghiResponse.ok c) = some c)
    ∧ (∀ (r : TDResponseData) (code : String) (p : Price),
        r.asSingle.price = some p → r.asSingle.statusError = false →
        td_read true r code = some p)
    ∧ (∀ (r : TDResponseData) (code : String) (s : TDStock) (p : Price),
        r.byCode code = some s → s.price = some p → s.statusError = false →
        td_read false r code = some p)
    ∧ (∀ r : YahooResp, r.throws = false → r.status200 = true →
        r.hasResult = true → yahoo_variant_price r = r.regularMarketPrice)
    ∧ (∀ (pts : List EastPoint) (pt : EastPoint), pts.getLast? = some pt →
        east_price ⟨true, true, some pts⟩ = pt.y) := by
  refine ⟨?_, ?_, ?_, ?_, ?_, ?_, ?_⟩
  · intro p hp
    simp [alpha_vantage_price, not_lt.mpr hp]
  · intro mapping acc sym orig p hl ho hp
    simp [tencent_process_line, hl, ho, not_lt.mpr hp]
  · intro c
    simp [tsanghi_price]
  · intro r code p hp hs
    simp [td_read, hp, hs]
  · intro r code s p hc hp hs
    simp [td_read, hc, hp, hs]
  · intro r ht h2 h3
    simp [yahoo_variant_price, ht, h2, h3]
  · intro pts pt hl
    simp [east_price, hl]

/-- C1 counterexample: with no Alpha Vantage key and tsanghi answering a
close of 0, the single-stock resolve returns the zero price instead of
treating it as NotFound. -/
theorem priceSignPolicy_cex :
    (single_us_stock_price zeroStockEnv "AAPL").1 = some 0 := rfl

/-- Witness for the sign policy: the primary leg drops a zero quote while
the tsanghi leg hands a negative close through. -/
theorem priceSignPolicy_w :
    alpha_vantage_price (AVResponse.quote 0) = none ∧
    tsanghi_price (TsanghiResponse.ok (-2)) = some (-2) :=
  ⟨priceSignPolicy.1 0 le_rfl, priceSignPolicy.2.2.1 (-2)⟩

/-- C2 (amended): on an embedded rate-limit code the group sleeps 60s and
retries the same symbols exactly once (the request counter advances by
two); if the retry is rate-limited too, the batch attempt is abandoned and
the raised exception lands in the degradation handler, which resolves every
ticker of the group individually — so fallback prices may still be
recorded — before the loop moves to the next group. -/
theorem rateLimitRetryDegrade (env : StockEnv) (n : Nat) (g : List String)
    (isLast : Bool) (r r2 : TDResponseData)
    (h1 : env.td n = some r) (hrl : r.isRateLimited = true)
    (h2 : env.td (n + 1) = some r2) (hrl2 : r2.isRateLimited = true) :
    processGroup env n g isLast =
      ((degrade_group env g).1,
       StockEvent.tdCall g :: StockEvent.sleepTenths 600 ::
         StockEvent.tdCall g :: (degrade_group env g).2,
       n + 2) := by
  simp [processGroup, h1, h2, hrl, hrl2]

/-- C2 counterexample: with every Twelve Data request rate-limited (first
call and retry alike) and tsanghi answering 7, the twice-rate-limited group
still records a price for its ticker. -/
theorem rateLimitRetryDegrade_cex :
    rlStockEnv.td 0 = some rlResp ∧ rlStockEnv.td 1 = some rlResp ∧
    rlResp.isRateLimited = true ∧
    (get_us_stock_price_list rlStockEnv ["AAPL"]).1 = [("AAPL", 7)] :=
  ⟨rfl, rfl, rfl, rfl⟩

/-- Witness for the rate-limit handling: the twice-rate-limited group is
degraded after exactly one retry. -/
theorem rateLimitRetryDegrade_w :
    processGroup rlStockEnv 0 ["AAPL"] true =
      ((degrade_group rlStockEnv ["AAPL"]).1,
       StockEvent.tdCall ["AAPL"] :: StockEvent.sleepTenths 600 ::
         StockEvent.tdCall ["AAPL"] :: (degrade_group rlStockEnv ["AAPL"]).2,
       0 + 2) :=
  rateLimitRetryDegrade rlStockEnv 0 ["AAPL"] true rlResp rlResp rfl rfl rfl rfl

/-- The degraded per-ticker path never emits the 0.5s inter-group delay
(its only sleep is the 1.5s Alpha Vantage pause). -/
theorem sleep5_not_in_degrade (env : StockEnv) (l : List String) :
    StockEvent.sleepTenths 5 ∉ (degrade_group env l).2 := by
  induction l with
  | nil => simp [degrade_group]
  | cons c cs ih =>
    simp only [degrade_group]
    intro h
    simp only [List.mem_append, List.mem_cons] at h
    rcases h with (h | h) | h
    · cases h
    · rcases hm : (if env.hasKey then alpha_vantage_price (env.av c) else none)
        with - | p <;>
        · unfold single_us_stock_price at h
          rw [hm] at h
          simp at h
    · exact ih h

/-- The last group of the batch loop never sleeps the inter-group delay,
whatever the provider does. -/
theorem sleep5_not_in_lastGroup (env : StockEnv) (g : List String) (n : Nat) :
    StockEvent.sleepTenths 5 ∉ (processGroup env n g true).2.1 := by
  rcases h : env.td n with - | r
  · simp [processGroup, h, sleep5_not_in_degrade]
  · rcases hrl : r.isRateLimited with - | -
    · simp [processGroup, h, hrl]
    · rcases h2 : env.td (n + 1) with - | r2
      · simp [processGroup, h, hrl, h2, sleep5_not_in_degrade]
      · rcases hrl2 : r2.isRateLimited with - | -
        · simp [processGroup, h, hrl, h2, hrl2]
        · simp [processGroup, h, hrl, h2, hrl2, sleep5_not_in_degrade]

/-- C5: with ten tickers and a provider that answers every request without
rate-limiting, the run makes exactly two Twelve Data calls — the first
eight symbols, then the remaining two — with the 0.5s delay exactly
between them; and a last group never sleeps that delay under any provider
behaviour. -/
theorem stockBatchGrouping (env : StockEnv)
    (t1 t2 t3 t4 t5 t6 t7 t8 t9 t10 : String)
    (henv : ∀ n, ∃ r, env.td n = some r ∧ r.isRateLimited = false) :
    (get_us_stock_price_list env
        [t1, t2, t3, t4, t5, t6, t7, t8, t9, t10]).2 =
      [StockEvent.tdCall [t1, t2, t3, t4, t5, t6, t7, t8],
       StockEvent.sleepTenths 5,
       StockEvent.tdCall [t9, t10]]
    ∧ ∀ (env2 : StockEnv) (g : List String) (n : Nat),
        StockEvent.sleepTenths 5 ∉ (processGroup env2 n g true).2.1 := by
  constructor
  · obtain ⟨r0, h0, hrl0⟩ := henv 0
    obtain ⟨r1, h1, hrl1⟩ := henv 1
    simp [get_us_stock_price_list, chunks8, chunksAux, processGroups,
      processGroup, h0, h1, hrl0, hrl1]
  · exact fun env2 g n => sleep5_not_in_lastGroup env2 g n

/-- Witness for the grouping: a concrete ten-ticker run under an always-ok
provider produces exactly the two calls and the single delay. -/
theorem stockBatchGrouping_w :
    (get_us_stock_price_list happyStockEnv
        ["T1", "T2", "T3", "T4", "T5", "T6", "T7", "T8", "T9", "T10"]).2 =
      [StockEvent.tdCall ["T1", "T2", "T3", "T4", "T5", "T6", "T7", "T8"],
       StockEvent.sleepTenths 5,
       StockEvent.tdCall ["T9", "T10"]] :=
  (stockBatchGrouping happyStockEnv "T1" "T2" "T3" "T4" "T5" "T6" "T7" "T8"
    "T9" "T10" (fun _ => ⟨emptyOkResp, rfl, rfl⟩)).1

/-- C6: the one-item row and the two-item row both map to AAPL for update
purposes and contribute exactly their record ids under AAPL; extraction
collected the second item's X as well and keeps the universe deduplicated
while covering every item's truthy text; and a row whose first-item
identifier has no price contributes nothing to the update mapping. -/
theorem firstItemUpdateMapping (priceOf : String → Option Price) (r : Row)
    (c : String) :
    (row_update_code rowA = some "AAPL" ∧ row_update_code rowB = some "AAPL")
    ∧ build_code_records [rowA, rowB] priceMapW = [("AAPL", "r1"), ("AAPL", "r2")]
    ∧ ("X" ∈ extract_codes [rowA, rowB] ∧ "AAPL" ∈ extract_codes [rowA, rowB])
    ∧ (∀ (rows : List Row) (x : String),
        x ∈ extract_codes rows ↔ ∃ row ∈ rows, x ∈ row_codes row)
    ∧ (∀ rows : List Row, (extract_codes rows).Nodup)
    ∧ (row_update_code r = some c → priceOf c = none →
        row_update_entry priceOf r = none) := by
  refine ⟨⟨rfl, rfl⟩, by decide, ⟨by decide, by decide⟩, ?_, ?_, ?_⟩
  · intro rows x
    simp [extract_codes, List.mem_dedup, List.mem_flatMap]
  · intro rows
    exact List.nodup_dedup _
  · intro h1 h2
    rw [row_update_entry, h1]
    simp [h2]

/-- Witness for the update mapping: a row whose first-item code has no
price is dropped. -/
theorem firstItemUpdateMapping_w :
    row_update_entry (fun _ => none) rowA = none :=
  (firstItemUpdateMapping (fun _ => none) rowA "AAPL").2.2.2.2.2 rfl rfl

/-- Appending to the fixed Shanghai tag is injective. -/
theorem sh_append_inj {x c : String} (h : "sh" ++ x = "sh" ++ c) : x = c := by
  rw [String.congr_append, String.congr_append] at h
  injection h with h
  have h2 := List.append_cancel_left h
  cases x; cases c
  exact congrArg String.mk (by simpa using h2)

/-- Appending to the fixed Shenzhen tag is injective. -/
theorem sz_append_inj {x c : String} (h : "sz" ++ x = "sz" ++ c) : x = c := by
  rw [String.congr_append, String.congr_append] at h
  injection h with h
  have h2 := List.append_cancel_left h
  cases x; cases c
  exact congrArg String.mk (by simpa using h2)

/-- A Shanghai-tagged symbol never equals a Shenzhen-tagged one. -/
theorem sh_ne_sz {x c : String} (h : "sh" ++ x = "sz" ++ c) : False := by
  rw [String.congr_append, String.congr_append] at h
  injection h with h
  simp at h

/-- Distinct codes get distinct tagged symbols. -/
theorem marketSymbol_inj (x c : String) (h : marketSymbol x = marketSymbol c) :
    x = c := by
  unfold marketSymbol at h
  split_ifs at h
  all_goals first
    | exact sh_append_inj h
    | exact sz_append_inj h
    | exact (sh_ne_sz h).elim
    | exact (sh_ne_sz h.symm).elim

/-- A string starting with one character does not start with a different
one. -/
theorem startsWithCh_unique {c : String} {a b : Char}
    (h : startsWithCh c a = true) (hne : a ≠ b) : startsWithCh c b = false := by
  obtain ⟨d⟩ := c
  rcases d with _ | ⟨ch, t⟩
  · simp [startsWithCh] at h
  · have hc : ch = a := by simpa [startsWithCh] using h
    subst hc
    simpa [startsWithCh] using hne

/-- Looking a code's tagged symbol up in `code_mapping` recovers the code. -/
theorem lookup_marketSymbol (codes : List String) (c : String) (hc : c ∈ codes) :
    List.lookup (marketSymbol c) (codes.map (fun x => (marketSymbol x, x)))
      = some c := by
  induction codes with
  | nil => cases hc
  | cons x xs ih =>
    simp only [List.map_cons, List.lookup]
    by_cases he : marketSymbol c = marketSymbol x
    · have hx : x = c := marketSymbol_inj x c he.symm
      subst hx
      simp
    · have hb : (marketSymbol c == marketSymbol x) = false := by
        simpa using he
      rw [hb]
      rcases List.mem_cons.mp hc with rfl | hc2
      · exact absurd rfl he
      · exact ih hc2

/-- C7: every code starting 6 or 5 is requested under the Shanghai tag,
every code starting 0, 1, 2 or 3 under the Shenzhen tag, any code starting
with neither under the Shenzhen tag as well; and the tagged-to-original
mapping translates a code's tagged symbol back to the code itself. -/
theorem fundMarketTagging (codes : List String) (c : String) (hc : c ∈ codes) :
    ((startsWithCh c '6' = true ∨ startsWithCh c '5' = true) →
      marketSymbol c = "sh" ++ c)
    ∧ ((startsWithCh c '0' = true ∨ startsWithCh c '1' = true ∨
        startsWithCh c '2' = true ∨ startsWithCh c '3' = true) →
      marketSymbol c = "sz" ++ c)
    ∧ ((startsWithCh c '6' = false ∧ startsWithCh c '5' = false) →
      marketSymbol c = "sz" ++ c)
    ∧ List.lookup (marketSymbol c) (codes.map (fun x => (marketSymbol x, x)))
      = some c := by
  refine ⟨?_, ?_, ?_, lookup_marketSymbol codes c hc⟩
  · intro h
    rcases h with h | h <;> simp [marketSymbol, h]
  · intro h
    have h6 : startsWithCh c '6' = false := by
      rcases h with h | h | h | h <;> exact startsWithCh_unique h (by decide)
    have h5 : startsWithCh c '5' = false := by
      rcases h with h | h | h | h <;> exact startsWithCh_unique h (by decide)
    simp [marketSymbol, h6, h5]
  · rintro ⟨h6, h5⟩
    simp [marketSymbol, h6, h5]

/-- Witness for the market tagging: 600519 is tagged Shanghai and 012345
translates back through the mapping. -/
theorem fundMarketTagging_w :
    marketSymbol "600519" = "sh" ++ "600519" ∧
    List.lookup (marketSymbol "012345")
      (["600519", "012345"].map (fun x => (marketSymbol x, x)))
      = some "012345" :=
  ⟨(fundMarketTagging ["600519", "012345"] "600519" (by decide)).1
      (Or.inl (by decide)),
   (fundMarketTagging ["600519", "012345"] "012345" (by decide)).2.2.2⟩

/-- Provenance of the fund-batch fold: every recorded pair either was in
the accumulator already or comes from a response line whose tagged symbol
maps to the code, with a positive parsed price. -/
theorem tencent_fold_mem (mapping : List (String × String))
    (lines : List TencentLine) (acc : List (String × Price))
    (c : String) (p : Price)
    (h : (c, p) ∈ lines.foldl (tencent_process_line mapping) acc) :
    (c, p) ∈ acc ∨ ∃ ln ∈ lines, List.lookup ln.symbol mapping = some c ∧
      ln.price = some p ∧ p > 0 := by
  induction lines generalizing acc with
  | nil => exact Or.inl (by simpa using h)
  | cons ln rest ih =>
    simp only [List.foldl_cons] at h
    rcases ih (tencent_process_line mapping acc ln) h with hstep | ⟨ln2, hmem, hrest⟩
    · rcases hl : List.lookup ln.symbol mapping with - | orig <;>
        simp only [tencent_process_line, hl] at hstep
      · exact Or.inl hstep
      · by_cases ho : orig.isEmpty = true
        · rw [if_pos ho] at hstep
          exact Or.inl hstep
        · rw [if_neg ho] at hstep
          rcases hp : ln.price with - | p2 <;> simp only [hp] at hstep
          · exact Or.inl hstep
          · by_cases hpos : p2 > 0
            · rw [if_pos hpos] at hstep
              rcases List.mem_append.mp hstep with ha | hb
              · exact Or.inl ha
              · simp only [List.mem_singleton, Prod.mk.injEq] at hb
                obtain ⟨rfl, rfl⟩ := hb
                exact Or.inr ⟨ln, List.mem_cons_self ln rest, hl, hp, hpos⟩
            · rw [if_neg hpos] at hstep
              exact Or.inl hstep
    · exact Or.inr ⟨ln2, List.mem_cons_of_mem ln hmem, hrest⟩

/-- C4: when the combined Tencent call raises, the resolver falls back to
the single-identifier contract exactly for the codes missing from the
result map — the map being necessarily empty at that point, that is every
input code — and when the call succeeds the result comes from the parsed
lines alone: no single-identifier fallback runs, and a code no line
accounts for is simply absent from the returned map. -/
theorem fundBatchFallbackScope (env : FundEnv) (codes : List String) :
    (env.tencent (codes.map marketSymbol) = none →
      get_china_fund_price_list env codes =
        (codes.filterMap
          (fun c => (single_china_fund_price env c).map (fun p => (c, p))),
         FundEvent.tencentCall (codes.map marketSymbol)
           :: codes.map FundEvent.singleCall))
    ∧ (∀ lines, env.tencent (codes.map marketSymbol) = some lines →
      get_china_fund_price_list env codes =
        (lines.foldl
          (tencent_process_line (codes.map (fun c => (marketSymbol c, c)))) [],
         [FundEvent.tencentCall (codes.map marketSymbol)])
      ∧ ∀ (c : String) (p : Price),
          (c, p) ∈ (get_china_fund_price_list env codes).1 →
          ∃ ln ∈ lines,
            List.lookup ln.symbol (codes.map (fun x => (marketSymbol x, x)))
              = some c ∧ ln.price = some p ∧ p > 0) := by
  constructor
  · intro h
    simp [get_china_fund_price_list, h]
  · intro lines h
    constructor
    · simp [get_china_fund_price_list, h]
    · intro c p hm
      simp only [get_china_fund_price_list, h] at hm
      rcases tencent_fold_mem _ _ _ _ _ hm with h0 | hex
      · cases h0
      · exact hex

/-- Witness for the fallback scope: with a raising Tencent call, one code,
failing Yahoo variants and eastmoney answering 3, the degraded path prices
the code and emits exactly one per-code fallback call. -/
theorem fundBatchFallbackScope_w :
    get_china_fund_price_list fundThrowEnv ["161725"] =
      ([("161725", 3)],
       [FundEvent.tencentCall ["sz161725"], FundEvent.singleCall "161725"]) := by
  have h := (fundBatchFallbackScope fundThrowEnv ["161725"]).1 rfl
  rw [h]
  decide
